import Mathlib

/-!
Shallow embedding of the dungeon-escape game engine (src/app.js).

The JavaScript program keeps all session state in one closure scope:
`gameRunning`, the `player` object, the mutable `rooms` table, and the
visibility of two DOM controls (the start button and the input area).
We model that scope as one `GameState` record, DOM output (`print`) as a
returned list of `Line`s, and each game function as a Lean function of
the same name.  Member access on a possibly-undefined JavaScript value is
the one fault the program could raise; functions that perform such
accesses return `Except Fault`.
-/

namespace DungeonEscape

/-- One printed line: the text and the CSS class passed to `print`. -/
structure Line where
  text : String
  cls : String
deriving DecidableEq, Repr

/-- A JavaScript runtime fault: a member access on `undefined`. -/
inductive Fault where
  | undefinedAccess
deriving DecidableEq, Repr

/-- Mutable per-room data, mirroring one entry of the `rooms` object. -/
structure RoomData where
  name : String
  description : String
  exits : List (String × String)
  items : List String
  blockedExits : List (String × String)
deriving DecidableEq, Repr

/-- The whole closure scope of app.js: `gameRunning`, the `player` object
(current room and inventory), the three mutable room records, and the
hidden/visible state of the two DOM controls. -/
structure GameState where
  gameRunning : Bool
  currentRoom : String
  inventory : List String
  cell : RoomData
  hallway : RoomData
  armory : RoomData
  startHidden : Bool
  inputHidden : Bool
deriving DecidableEq, Repr

/-- Static item definition, mirroring one entry of the `items` object
(the `stone` entry's `onExamine` closure is modelled by `stoneOnExamine`). -/
structure ItemDef where
  name : String
  description : String
  canTake : Bool
deriving DecidableEq, Repr

/-- JavaScript `String.prototype.trim()`: strip whitespace from both ends
(structural model over the character list). -/
def jsTrim (s : String) : String :=
  ⟨((s.data.dropWhile Char.isWhitespace).reverse.dropWhile Char.isWhitespace).reverse⟩

/-- JavaScript `String.prototype.toLowerCase()` (ASCII, structural model
over the character list). -/
def jsToLower (s : String) : String :=
  ⟨s.data.map Char.toLower⟩

/-- Splitting a character list at every occurrence of `sep`, keeping empty
pieces, as JavaScript `split` does. -/
def splitCharAux (sep : Char) : List Char → List (List Char)
  | [] => [[]]
  | c :: rest =>
    if c = sep then [] :: splitCharAux sep rest
    else (c :: (splitCharAux sep rest).headD []) :: (splitCharAux sep rest).tail

/-- JavaScript `String.prototype.split(sep)` for a one-character separator:
consecutive separators produce empty tokens, and the result is never the
empty list. -/
def jsSplit (sep : Char) (s : String) : List String :=
  (splitCharAux sep s.data).map (fun l => ⟨l⟩)

/-- JavaScript own-property lookup on a string-keyed object literal,
modelled as an association-list lookup: `undefined` is `none`. -/
def jsGetOwn (m : List (String × String)) (k : String) : Option String :=
  (m.find? (fun p => p.1 == k)).map (fun p => p.2)

/-- The properties a plain object literal inherits from `Object.prototype`
that a typed command can name: the parser lower-cases all input, and
`constructor` and `__proto__` are the only all-lowercase property names of
`Object.prototype`.  The program only ever truth-tests these inherited
values or renders them through `textContent` (both are truthy objects), so
each is modelled by its `ToString`: the `Object` constructor function and
`Object.prototype` itself. -/
def protoGet (k : String) : Option String :=
  if k == "constructor" then some "function Object() \x7b [native code] \x7d"
  else if k == "__proto__" then some "[object Object]"
  else none

/-- JavaScript property lookup `obj[key]` on a string-keyed object literal:
the own properties first, then the typeable names inherited from
`Object.prototype`; `undefined` is `none`. -/
def jsGet (m : List (String × String)) (k : String) : Option String :=
  match jsGetOwn m k with
  | some v => some v
  | none => protoGet k

/-- JavaScript truthiness of a property lookup result: `undefined` and the
empty string are falsy, every other string is truthy. -/
def truthy : Option String → Bool
  | some v => v != ""
  | none => false

/-- The JavaScript `delete` operator on a string-keyed object. -/
def jsDelete (m : List (String × String)) (k : String) : List (String × String) :=
  m.filter (fun p => p.1 != k)

/-- The `items` object (static definitions; never mutated by the program). -/
def itemsDef : String → Option ItemDef
  | "stone" =>
    some { name := "Loose Stone",
           description := "A fist-sized stone. You notice a small, rusty key hidden in the cavity beneath it.",
           canTake := false }
  | "key" =>
    some { name := "Rusty Key",
           description := "A small, simple key. It looks like it might fit the lock on the armory door.",
           canTake := true }
  | "sword" =>
    some { name := "Gleaming Sword",
           description := "A beautiful, sharp sword. It feels powerful in your hands. Perhaps you could break something with it?",
           canTake := true }
  | _ => none

/-- The initial `cell` entry of the `rooms` object. -/
def cellInit : RoomData :=
  { name := "Dank Cell",
    description := "You are in a cold, stone cell. A single torch flickers on the wall, casting long shadows. The iron door to the north is barred shut. There is a pile of straw in the corner and a loose stone on the floor.",
    exits := [("north", "hallway")],
    items := ["stone"],
    blockedExits := [("north", "The door is barred from the other side.")] }

/-- The initial `hallway` entry of the `rooms` object. -/
def hallwayInit : RoomData :=
  { name := "Dim Hallway",
    description := "You stand in a narrow hallway. The cell door is to the south. To the east is a heavy wooden door with a small, rusty lock. To the west, the hallway ends in a pile of rubble.",
    exits := [("south", "cell"), ("east", "armory")],
    items := [],
    blockedExits := [("east", "The door is locked.")] }

/-- The initial `armory` entry of the `rooms` object. -/
def armoryInit : RoomData :=
  { name := "Dusty Armory",
    description := "This was once an armory. Racks that held weapons are now empty, save for a single, gleaming sword lying on a stone pedestal.",
    exits := [("west", "hallway")],
    items := ["sword"],
    blockedExits := {} }

/-- Modelled from the spec: the initial visibility of the two Presentation
Adapter controls comes from index.html, which is not under src/.  The spec
has input accepted only while a session is Active, and `startGame` removes
the `hidden` class from the input area and adds it to the start button, so
initially the start button is visible (`false`) and the input area hidden
(`true`). -/
def initControlsHidden : Bool × Bool := (false, true)

/-- The program state right after page load: `gameRunning = false`, the
player in the cell with an empty inventory, the rooms at their initial
data, the start button visible and the input area hidden. -/
def initState : GameState :=
  { gameRunning := false,
    currentRoom := "cell",
    inventory := [],
    cell := cellInit,
    hallway := hallwayInit,
    armory := armoryInit,
    startHidden := initControlsHidden.1,
    inputHidden := initControlsHidden.2 }

/-- `rooms[id]`: the room object named by `id`, or `undefined`. -/
def getRoom (s : GameState) : String → Option RoomData
  | "cell" => some s.cell
  | "hallway" => some s.hallway
  | "armory" => some s.armory
  | _ => none

/-- Writing back an in-place mutation of `rooms[id]`. -/
def setRoom (s : GameState) (id : String) (r : RoomData) : GameState :=
  if id == "cell" then { s with cell := r }
  else if id == "hallway" then { s with hallway := r }
  else if id == "armory" then { s with armory := r }
  else s

/-- `look()`: print the current room's name and description. -/
def look (s : GameState) : Except Fault (GameState × List Line) :=
  match getRoom s s.currentRoom with
  | none => .error .undefinedAccess
  | some room =>
      .ok (s, [⟨room.name, "text-cyan-400 text-lg"⟩, ⟨room.description, ""⟩])

/-- `move(direction)`: blocked exits take precedence; an unblocked exit
moves the player and then performs `look` on the new room. -/
def move (s : GameState) (direction : String) : Except Fault (GameState × List Line) :=
  match getRoom s s.currentRoom with
  | none => .error .undefinedAccess
  | some room =>
      if truthy (jsGet room.exits direction) then
        if truthy (jsGet room.blockedExits direction) then
          .ok (s, [⟨(jsGet room.blockedExits direction).getD "", "text-yellow-400"⟩])
        else
          look { s with currentRoom := (jsGet room.exits direction).getD "" }
      else
        .ok (s, [⟨"You can't go that way.", "text-red-400"⟩])

/-- `take(itemName)`: on success the item is pushed onto the inventory and
filtered out of the room's item list; any failure prints one generic line.
An item name present in the room but missing from the `items` table would
be a member access on `undefined`. -/
def take (s : GameState) (itemName : String) : Except Fault (GameState × List Line) :=
  match getRoom s s.currentRoom with
  | none => .error .undefinedAccess
  | some room =>
      if room.items.contains itemName then
        match itemsDef itemName with
        | none => .error .undefinedAccess
        | some item =>
            if item.canTake then
              .ok (setRoom { s with inventory := s.inventory ++ [itemName] }
                     s.currentRoom
                     { room with items := room.items.filter (fun i => i != itemName) },
                  [⟨"You take the " ++ item.name ++ ".", ""⟩])
            else
              .ok (s, [⟨"You can't take that.", "text-red-400"⟩])
      else
        .ok (s, [⟨"You can't take that.", "text-red-400"⟩])

/-- The `onExamine` closure of the `stone` item: reveal the key in the
cell once, and afterwards return a static line. -/
def stoneOnExamine (s : GameState) : GameState × String :=
  if !(s.inventory.contains "key") && !(s.cell.items.contains "key") then
    ({ s with cell := { s.cell with items := s.cell.items ++ ["key"] } },
     "You lift the stone and find a small, rusty key!")
  else
    (s, "It's just a stone. You already found the key that was under it.")

/-- `examine(itemName)`: an item visible in the current room or inventory
prints its description; only the stone has an `onExamine` effect, whose
truthy result is printed as a second line. -/
def examine (s : GameState) (itemName : String) : Except Fault (GameState × List Line) :=
  match getRoom s s.currentRoom with
  | none => .error .undefinedAccess
  | some room =>
      if room.items.contains itemName || s.inventory.contains itemName then
        match itemsDef itemName with
        | none => .error .undefinedAccess
        | some item =>
            if itemName == "stone" then
              let r := stoneOnExamine s
              if r.2 != "" then
                .ok (r.1, [⟨item.description, ""⟩, ⟨r.2, "text-green-400"⟩])
              else
                .ok (r.1, [⟨item.description, ""⟩])
            else
              .ok (s, [⟨item.description, ""⟩])
      else
        .ok (s, [⟨"You don't see that here.", "text-red-400"⟩])

/-- The lines of `showInventory`'s forEach loop, one per held item; an
unknown held item name would be a member access on `undefined`. -/
def inventoryLines : List String → Except Fault (List Line)
  | [] => .ok []
  | n :: rest =>
      match itemsDef n with
      | none => .error .undefinedAccess
      | some item =>
          match inventoryLines rest with
          | .error f => .error f
          | .ok ls => .ok (⟨"- " ++ item.name, ""⟩ :: ls)

/-- `showInventory()`. -/
def showInventory (s : GameState) : Except Fault (GameState × List Line) :=
  if s.inventory.length == 0 then
    .ok (s, [⟨"You are not carrying anything.", ""⟩])
  else
    match inventoryLines s.inventory with
    | .error f => .error f
    | .ok ls => .ok (s, ⟨"You are carrying:", ""⟩ :: ls)

/-- The first position of the `use` destructuring
`[itemToUse, , target] = command.split(' ')`. -/
def useItem (command : String) : String :=
  (jsSplit ' ' command).headD ""

/-- The third position of the `use` destructuring (possibly `undefined`). -/
def useTarget (command : String) : Option String :=
  (jsSplit ' ' command)[2]?

/-- The state mutation of the `(key, door, hallway)` use rule. -/
def unlockState (s : GameState) : GameState :=
  { s with hallway := { s.hallway with blockedExits := jsDelete s.hallway.blockedExits "east" } }

/-- The state mutation of the `(sword, door, cell)` use rule: the cell's
north exit is unblocked, `gameRunning` becomes false and the input area is
hidden. -/
def winState (s : GameState) : GameState :=
  { s with cell := { s.cell with blockedExits := jsDelete s.cell.blockedExits "north" },
           gameRunning := false,
           inputHidden := true }

/-- `use(command)`: the noun phrase is split on single spaces; the first
token must be held, then the two hard-coded rules are tried in order. -/
def use (s : GameState) (command : String) : GameState × List Line :=
  if !(s.inventory.contains (useItem command)) then
    (s, [⟨"You don't have that.", "text-red-400"⟩])
  else if useItem command == "key" && useTarget command == some "door"
      && s.currentRoom == "hallway" then
    (unlockState s,
     [⟨"The key fits! You unlock the armory door with a loud *click*.", "text-green-400"⟩])
  else if useItem command == "sword" && useTarget command == some "door"
      && s.currentRoom == "cell" then
    (winState s,
     [⟨"You swing the sword with all your might and shatter the wooden bar on the other side of the door!", "text-green-400"⟩,
      ⟨"You have escaped the dungeon!", "text-yellow-400 font-bold text-lg"⟩])
  else
    (s, [⟨"You can't use that like that.", "text-red-400"⟩])

/-- The parsing step of `processCommand`: trim and lower-case the raw
input; an empty result is no command; otherwise the verb is the first
token of a split on single spaces and the noun the remaining tokens
rejoined with single spaces. -/
def parseCommand (raw : String) : Option (String × String) :=
  if jsToLower (jsTrim raw) == "" then none
  else
    some ((jsSplit ' ' (jsToLower (jsTrim raw))).headD "",
          " ".intercalate (jsSplit ' ' (jsToLower (jsTrim raw))).tail)

/-- The verb switch of `processCommand`. -/
def dispatch (s : GameState) (verb noun : String) : Except Fault (GameState × List Line) :=
  if verb == "look" || verb == "l" then look s
  else if verb == "go" || verb == "move" then move s noun
  else if verb == "take" || verb == "get" then take s noun
  else if verb == "examine" || verb == "x" then examine s noun
  else if verb == "inventory" || verb == "i" then showInventory s
  else if verb == "use" then .ok (use s noun)
  else .ok (s, [⟨"I don't understand that command.", "text-red-400"⟩])

/-- `processCommand()` on a raw input string: empty trimmed input returns
silently; otherwise the command is echoed and dispatched on its verb. -/
def processCommand (s : GameState) (raw : String) : Except Fault (GameState × List Line) :=
  match parseCommand raw with
  | none => .ok (s, [])
  | some (verb, noun) =>
      match dispatch s verb noun with
      | .ok (s1, ls) => .ok (s1, ⟨"> " ++ jsToLower (jsTrim raw), "text-gray-500"⟩ :: ls)
      | .error f => .error f

/-- `startGame()`: set `gameRunning`, hide the start button, show the
input area, print the banner and `look` at the current room.  It performs
no reset of the player or room data. -/
def startGame (s : GameState) : Except Fault (GameState × List Line) :=
  match look { s with gameRunning := true, startHidden := true, inputHidden := false } with
  | .error f => .error f
  | .ok (s2, ls) =>
      .ok (s2, ⟨"Executing DungeonEscape.java...", "text-yellow-400"⟩ :: ⟨"---", ""⟩ :: ls)

/-- A user interaction: clicking the start button, or submitting the text
of the command input. -/
inductive Event where
  | clickStart
  | submit (text : String)
deriving DecidableEq, Repr

/-- Modelled from the spec: index.html (not under src/) renders the two
controls, and an element carrying the `hidden` class is not displayed, so
a hidden control receives no click or keyboard event and its listener
(app.js wires the start button to `startGame` and the input controls to
`processCommand`) cannot fire.  A step on a hidden control is therefore a
silent no-op. -/
def appStep (s : GameState) : Event → Except Fault (GameState × List Line)
  | .clickStart => if s.startHidden then .ok (s, []) else startGame s
  | .submit t => if s.inputHidden then .ok (s, []) else processCommand s t

/-- Running a sequence of user interactions from a state. -/
def runApp (s : GameState) : List Event → Except Fault GameState
  | [] => .ok s
  | e :: rest =>
      match appStep s e with
      | .error f => .error f
      | .ok (s1, _) => runApp s1 rest

/-- The states the application can reach through user interactions. -/
inductive Reachable : GameState → Prop where
  | init : Reachable initState
  | step {s s' : GameState} {e : Event} {out : List Line} :
      Reachable s → appStep s e = .ok (s', out) → Reachable s'

/-- The states the engine can reach from the initial state by processing
command strings (ignoring the presentation-layer gating). -/
inductive ReachableCmd : GameState → Prop where
  | init : ReachableCmd initState
  | step {s s' : GameState} {raw : String} {out : List Line} :
      ReachableCmd s → processCommand s raw = .ok (s', out) → ReachableCmd s'

/-- Whether a raw input, processed in state `s`, is the successful escape:
a `use` command whose first noun token is the held sword, whose third noun
token is `door`, submitted in the cell. -/
def isEscapeCommand (s : GameState) (raw : String) : Bool :=
  match parseCommand raw with
  | none => false
  | some (verb, noun) =>
      verb == "use" && useItem noun == "sword" && useTarget noun == some "door"
        && s.inventory.contains "sword" && s.currentRoom == "cell"

/-- The takeable flag the `take` condition reads for a noun (false for a
name missing from the `items` table). -/
def takeableOf (n : String) : Bool :=
  match itemsDef n with
  | some item => item.canTake
  | none => false

/-- The reachable-state invariant: the current room names one of the three
rooms, the static exit maps are unchanged, the blocked-exit maps are the
initial ones or emptied, each room's item list has one of its reachable
shapes, the inventory is one of its reachable shapes, and an item is never
both in a room and in the inventory. -/
def Inv (s : GameState) : Prop :=
  (s.currentRoom = "cell" ∨ s.currentRoom = "hallway" ∨ s.currentRoom = "armory") ∧
  s.cell.exits = [("north", "hallway")] ∧
  s.hallway.exits = [("south", "cell"), ("east", "armory")] ∧
  s.armory.exits = [("west", "hallway")] ∧
  (s.cell.blockedExits = [("north", "The door is barred from the other side.")] ∨
    s.cell.blockedExits = []) ∧
  (s.hallway.blockedExits = [("east", "The door is locked.")] ∨
    s.hallway.blockedExits = []) ∧
  s.armory.blockedExits = [] ∧
  (s.cell.items = ["stone"] ∨ s.cell.items = ["stone", "key"]) ∧
  s.hallway.items = [] ∧
  (s.armory.items = ["sword"] ∨ s.armory.items = []) ∧
  (s.inventory = [] ∨ s.inventory = ["key"] ∨ s.inventory = ["sword"] ∨
    s.inventory = ["key", "sword"] ∨ s.inventory = ["sword", "key"]) ∧
  ("key" ∈ s.cell.items → "key" ∉ s.inventory) ∧
  ("sword" ∈ s.armory.items → "sword" ∉ s.inventory)

/-- All item occurrences across the three rooms and the inventory. -/
def itemBag (s : GameState) : List String :=
  s.cell.items ++ s.hallway.items ++ s.armory.items ++ s.inventory

/-- Whether processing `raw` in state `s` is an examine of the stone that can
fire its reveal effect: the input parses to an examine verb with noun `stone`,
and the stone is visible in the current room or inventory. -/
def examinesStone (s : GameState) (raw : String) : Bool :=
  match parseCommand raw with
  | none => false
  | some (verb, noun) =>
      (verb == "examine" || verb == "x") && noun == "stone" &&
        (match getRoom s s.currentRoom with
         | some room => room.items.contains "stone" || s.inventory.contains "stone"
         | none => false)

instance (s : GameState) : Decidable (Inv s) := by
  unfold Inv
  infer_instance

/-- The session state left behind by an abandoned play-through: click start,
examine the stone, take the revealed key (computed by `runApp`). -/
def sAband : GameState :=
  { initState with gameRunning := true, startHidden := true, inputHidden := false,
                   inventory := ["key"] }

/-- An active session standing in the cell holding the sword: the position
from which the escape command succeeds. -/
def sEscape : GameState :=
  { initState with gameRunning := true, startHidden := true, inputHidden := false,
                   inventory := ["sword"] }

/-- The state after a successful `take`: the item is pushed onto the
inventory and filtered out of the current room's item list. -/
def takeSuccessState (s : GameState) (room : RoomData) (noun : String) : GameState :=
  setRoom { s with inventory := s.inventory ++ [noun] } s.currentRoom
    { room with items := room.items.filter (fun i => i != noun) }

/-- The world mutation a successfully dispatched command `(v, n)` can have
performed, with the guards under which each mutation fires. -/
def MutationShape (s : GameState) (v n : String) (s' : GameState) : Prop :=
  ((v = "go" ∨ v = "move") ∧ ∃ room dest, getRoom s s.currentRoom = some room ∧
      jsGet room.exits n = some dest ∧ truthy (jsGet room.blockedExits n) = false ∧
      s' = { s with currentRoom := dest }) ∨
  ((v = "take" ∨ v = "get") ∧ ∃ room item, getRoom s s.currentRoom = some room ∧
      n ∈ room.items ∧ itemsDef n = some item ∧ item.canTake = true ∧
      s' = setRoom { s with inventory := s.inventory ++ [n] } s.currentRoom
             { room with items := room.items.filter (fun i => i != n) }) ∨
  ((v = "examine" ∨ v = "x") ∧ n = "stone" ∧
      "key" ∉ s.inventory ∧ "key" ∉ s.cell.items ∧
      (∃ room, getRoom s s.currentRoom = some room ∧
        ("stone" ∈ room.items ∨ "stone" ∈ s.inventory)) ∧
      s' = { s with cell := { s.cell with items := s.cell.items ++ ["key"] } }) ∨
  (v = "use" ∧ useItem n ∈ s.inventory ∧ useTarget n = some "door" ∧
      ((useItem n = "key" ∧ s.currentRoom = "hallway" ∧ s' = unlockState s) ∨
       (useItem n = "sword" ∧ s.currentRoom = "cell" ∧ s' = winState s)))



theorem look_shape {s s' : GameState} {ls : List Line} (h : look s = .ok (s', ls)) : s' = s := by
  unfold look at h
  split at h
  · exact absurd h (by simp)
  · simp only [Except.ok.injEq, Prod.mk.injEq] at h
    exact h.1.symm

theorem showInventory_shape {s s' : GameState} {ls : List Line}
    (h : showInventory s = .ok (s', ls)) : s' = s := by
  unfold showInventory at h
  split at h
  · simp only [Except.ok.injEq, Prod.mk.injEq] at h
    exact h.1.symm
  · split at h
    · exact absurd h (by simp)
    · simp only [Except.ok.injEq, Prod.mk.injEq] at h
      exact h.1.symm

theorem truthy_some {o : Option String} (h : truthy o = true) :
    ∃ v, o = some v ∧ v ≠ "" := by
  cases o with
  | none => simp [truthy] at h
  | some v =>
    refine ⟨v, rfl, ?_⟩
    simpa [truthy] using h

theorem move_shape {s s' : GameState} {d : String} {ls : List Line}
    (h : move s d = .ok (s', ls)) :
    s' = s ∨ ∃ room dest, getRoom s s.currentRoom = some room ∧
      jsGet room.exits d = some dest ∧ truthy (jsGet room.blockedExits d) = false ∧
      s' = { s with currentRoom := dest } := by
  unfold move at h
  split at h
  · exact absurd h (by simp)
  case _ room heq =>
    split at h
    case isTrue ht =>
      split at h
      case isTrue =>
        simp only [Except.ok.injEq, Prod.mk.injEq] at h
        exact Or.inl h.1.symm
      case isFalse hb =>
        obtain ⟨v, hv, hne⟩ := truthy_some ht
        have := look_shape h
        refine Or.inr ⟨room, v, heq, hv, ?_, ?_⟩
        · simpa using hb
        · rw [this, hv]
          rfl
    case isFalse =>
      simp only [Except.ok.injEq, Prod.mk.injEq] at h
      exact Or.inl h.1.symm

theorem take_shape {s s' : GameState} {n : String} {ls : List Line}
    (h : take s n = .ok (s', ls)) :
    s' = s ∨ ∃ room item, getRoom s s.currentRoom = some room ∧
      n ∈ room.items ∧ itemsDef n = some item ∧ item.canTake = true ∧
      s' = setRoom { s with inventory := s.inventory ++ [n] } s.currentRoom
             { room with items := room.items.filter (fun i => i != n) } ∧
      ls = [⟨"You take the " ++ item.name ++ ".", ""⟩] := by
  unfold take at h
  split at h
  · exact absurd h (by simp)
  case _ room heq =>
    split at h
    case isTrue hmem =>
      split at h
      · exact absurd h (by simp)
      case _ item hitem =>
        split at h
        case isTrue hct =>
          simp only [Except.ok.injEq, Prod.mk.injEq] at h
          refine Or.inr ⟨room, item, heq, ?_, hitem, hct, h.1.symm, h.2.symm⟩
          simpa using hmem
        case isFalse =>
          simp only [Except.ok.injEq, Prod.mk.injEq] at h
          exact Or.inl h.1.symm
    case isFalse =>
      simp only [Except.ok.injEq, Prod.mk.injEq] at h
      exact Or.inl h.1.symm

theorem examine_shape {s s' : GameState} {n : String} {ls : List Line}
    (h : examine s n = .ok (s', ls)) :
    s' = s ∨ (n = "stone" ∧ "key" ∉ s.inventory ∧ "key" ∉ s.cell.items ∧
      (∃ room, getRoom s s.currentRoom = some room ∧
        ("stone" ∈ room.items ∨ "stone" ∈ s.inventory)) ∧
      s' = { s with cell := { s.cell with items := s.cell.items ++ ["key"] } }) := by
  unfold examine at h
  split at h
  · exact absurd h (by simp)
  case _ room heq =>
    split at h
    case isTrue hvis =>
      split at h
      · exact absurd h (by simp)
      case _ item hitem =>
        split at h
        case isTrue hstone =>
          have hn : n = "stone" := by simpa using hstone
          subst hn
          unfold stoneOnExamine at h
          split at h
          case isTrue hcond =>
            simp only [Bool.and_eq_true, Bool.not_eq_eq_eq_not, Bool.not_true] at hcond
            simp +decide only [reduceIte, Except.ok.injEq, Prod.mk.injEq] at h
            exact Or.inr ⟨rfl, by simpa using hcond.1, by simpa using hcond.2,
              ⟨room, heq, by simpa using hvis⟩, h.1.symm⟩
          case isFalse =>
            simp +decide only [reduceIte, Except.ok.injEq, Prod.mk.injEq] at h
            exact Or.inl h.1.symm
        case isFalse =>
          simp only [Except.ok.injEq, Prod.mk.injEq] at h
          exact Or.inl h.1.symm
    case isFalse =>
      simp only [Except.ok.injEq, Prod.mk.injEq] at h
      exact Or.inl h.1.symm

theorem use_cases {s s' : GameState} {n : String} {ls : List Line}
    (h : use s n = (s', ls)) :
    (s' = s) ∨
    (useItem n ∈ s.inventory ∧ useItem n = "key" ∧ useTarget n = some "door" ∧
      s.currentRoom = "hallway" ∧ s' = unlockState s) ∨
    (useItem n ∈ s.inventory ∧ useItem n = "sword" ∧ useTarget n = some "door" ∧
      s.currentRoom = "cell" ∧ s' = winState s) := by
  unfold use at h
  split at h
  · simp only [Prod.mk.injEq] at h
    exact Or.inl h.1.symm
  case isFalse hheld =>
    split at h
    case isTrue hc =>
      simp only [Bool.and_eq_true, beq_iff_eq] at hc
      simp only [Prod.mk.injEq] at h
      refine Or.inr (Or.inl ⟨?_, hc.1.1, ?_, hc.2, h.1.symm⟩)
      · have hx : s.inventory.contains (useItem n) = true := by
          simpa using hheld
        simpa using hx
      · simpa using hc.1.2
    case isFalse =>
      split at h
      case isTrue hc =>
        simp only [Bool.and_eq_true, beq_iff_eq] at hc
        simp only [Prod.mk.injEq] at h
        refine Or.inr (Or.inr ⟨?_, hc.1.1, ?_, hc.2, h.1.symm⟩)
        · have hx : s.inventory.contains (useItem n) = true := by
            simpa using hheld
          simpa using hx
        · simpa using hc.1.2
      case isFalse =>
        simp only [Prod.mk.injEq] at h
        exact Or.inl h.1.symm

theorem dispatch_shape {s s' : GameState} {v n : String} {ls : List Line}
    (h : dispatch s v n = .ok (s', ls)) :
    s' = s ∨ MutationShape s v n s' := by
  unfold dispatch at h
  split at h
  case isTrue => exact Or.inl (look_shape h)
  case isFalse =>
    split at h
    case isTrue hv =>
      rcases move_shape h with h1 | ⟨room, dest, h1, h2, h3, h4⟩
      · exact Or.inl h1
      · exact Or.inr (Or.inl ⟨by simpa [beq_iff_eq, or_comm] using hv,
          room, dest, h1, h2, h3, h4⟩)
    case isFalse =>
      split at h
      case isTrue hv =>
        rcases take_shape h with h1 | ⟨room, item, h1, h2, h3, h4, h5, -⟩
        · exact Or.inl h1
        · exact Or.inr (Or.inr (Or.inl ⟨by simpa [beq_iff_eq, or_comm] using hv,
            room, item, h1, h2, h3, h4, h5⟩))
      case isFalse =>
        split at h
        case isTrue hv =>
          rcases examine_shape h with h1 | ⟨h1, h2, h3, h4, h5⟩
          · exact Or.inl h1
          · exact Or.inr (Or.inr (Or.inr (Or.inl ⟨by simpa [beq_iff_eq, or_comm] using hv,
              h1, h2, h3, h4, h5⟩)))
        case isFalse =>
          split at h
          case isTrue => exact Or.inl (showInventory_shape h)
          case isFalse =>
            split at h
            case isTrue hv =>
              simp only [Except.ok.injEq] at h
              rcases use_cases h with h1 | ⟨h1, h2, h3, h4, h5⟩ | ⟨h1, h2, h3, h4, h5⟩
              · exact Or.inl h1
              · exact Or.inr (Or.inr (Or.inr (Or.inr ⟨by simpa using hv, h1, h3,
                  Or.inl ⟨h2, h4, h5⟩⟩)))
              · exact Or.inr (Or.inr (Or.inr (Or.inr ⟨by simpa using hv, h1, h3,
                  Or.inr ⟨h2, h4, h5⟩⟩)))
            case isFalse =>
              simp only [Except.ok.injEq, Prod.mk.injEq] at h
              exact Or.inl h.1.symm

theorem processCommand_shape {s s' : GameState} {raw : String} {out : List Line}
    (h : processCommand s raw = .ok (s', out)) :
    s' = s ∨ ∃ v n, parseCommand raw = some (v, n) ∧ MutationShape s v n s' := by
  unfold processCommand at h
  split at h
  · simp only [Except.ok.injEq, Prod.mk.injEq] at h
    exact Or.inl h.1.symm
  case _ vb nn heqp =>
    split at h
    case _ s1 ls hd =>
      simp only [Except.ok.injEq, Prod.mk.injEq] at h
      rcases dispatch_shape hd with h1 | h1
      · exact Or.inl (h.1.symm.trans h1)
      · exact Or.inr ⟨vb, nn, heqp, h.1 ▸ h1⟩
    case _ f hd => exact absurd h (by simp)

theorem setRoom_gameRunning (s : GameState) (id : String) (r : RoomData) :
    (setRoom s id r).gameRunning = s.gameRunning := by
  unfold setRoom; split <;> try rfl
  split <;> try rfl
  split <;> rfl

theorem setRoom_currentRoom (s : GameState) (id : String) (r : RoomData) :
    (setRoom s id r).currentRoom = s.currentRoom := by
  unfold setRoom; split <;> try rfl
  split <;> try rfl
  split <;> rfl

theorem setRoom_inventory (s : GameState) (id : String) (r : RoomData) :
    (setRoom s id r).inventory = s.inventory := by
  unfold setRoom; split <;> try rfl
  split <;> try rfl
  split <;> rfl

theorem setRoom_startHidden (s : GameState) (id : String) (r : RoomData) :
    (setRoom s id r).startHidden = s.startHidden := by
  unfold setRoom; split <;> try rfl
  split <;> try rfl
  split <;> rfl

theorem setRoom_inputHidden (s : GameState) (id : String) (r : RoomData) :
    (setRoom s id r).inputHidden = s.inputHidden := by
  unfold setRoom; split <;> try rfl
  split <;> try rfl
  split <;> rfl


theorem jsGetOwn_mem {m : List (String × String)} {n d : String}
    (h : jsGetOwn m n = some d) : (n, d) ∈ m := by
  induction m with
  | nil => simp [jsGetOwn] at h
  | cons a rest ih =>
    unfold jsGetOwn at h
    rw [List.find?_cons] at h
    cases ha : (a.1 == n) with
    | true =>
      rw [ha] at h
      simp only [cond_true, Option.map_some'] at h
      have h1 : a.1 = n := by simpa using ha
      have h2 : a.2 = d := by simpa using h
      have hnd : (n, d) = a := by
        cases a
        simp_all
      rw [hnd]
      exact List.mem_cons_self a rest
    | false =>
      rw [ha] at h
      simp only [cond_false] at h
      exact List.mem_cons_of_mem a (ih h)

theorem getRoom_currentRoom_update (s : GameState) (x id : String) :
    getRoom { s with currentRoom := x } id = getRoom s id := by
  unfold getRoom
  split <;> rfl

theorem inv_currentRoom_cases {s : GameState} (h : Inv s) :
    (s.currentRoom = "cell" ∧ getRoom s s.currentRoom = some s.cell) ∨
    (s.currentRoom = "hallway" ∧ getRoom s s.currentRoom = some s.hallway) ∨
    (s.currentRoom = "armory" ∧ getRoom s s.currentRoom = some s.armory) := by
  rcases h.1 with hc | hc | hc
  · exact Or.inl ⟨hc, by rw [hc]; rfl⟩
  · exact Or.inr (Or.inl ⟨hc, by rw [hc]; rfl⟩)
  · exact Or.inr (Or.inr ⟨hc, by rw [hc]; rfl⟩)

theorem inv_room_items_known {s : GameState} {room : RoomData} {n : String}
    (h : Inv s) (hr : getRoom s s.currentRoom = some room) (hm : n ∈ room.items) :
    n = "stone" ∨ n = "key" ∨ n = "sword" := by
  obtain ⟨hcr, hce, hhe, hae, hcb, hhb, hab, hci, hhi, hai, hinv, hx1, hx2⟩ := h
  rcases inv_currentRoom_cases ⟨hcr, hce, hhe, hae, hcb, hhb, hab, hci, hhi, hai, hinv, hx1, hx2⟩
    with ⟨-, hg⟩ | ⟨-, hg⟩ | ⟨-, hg⟩ <;> rw [hg] at hr <;>
    cases hr
  · rcases hci with hh | hh <;> rw [hh] at hm <;> simp at hm
    · simp [hm]
    · rcases hm with hm | hm <;> simp [hm]
  · rw [hhi] at hm; simp at hm
  · rcases hai with hh | hh
    · rw [hh] at hm; simp at hm; simp [hm]
    · rw [hh] at hm; simp at hm

theorem inv_inventory_known {s : GameState} {n : String}
    (h : Inv s) (hm : n ∈ s.inventory) : n = "key" ∨ n = "sword" := by
  obtain ⟨-, -, -, -, -, -, -, -, -, -, hinv, -, -⟩ := h
  rcases hinv with hh | hh | hh | hh | hh <;> rw [hh] at hm <;> simp at hm
  · simp [hm]
  · simp [hm]
  · rcases hm with hm | hm <;> simp [hm]
  · rcases hm with hm | hm <;> simp [hm]


theorem splitCharAux_ne_nil (sep : Char) : ∀ l : List Char, splitCharAux sep l ≠ []
  | [] => by simp [splitCharAux]
  | c :: rest => by
    unfold splitCharAux
    by_cases hc : c = sep <;> simp [hc]

theorem look_of_room {s : GameState} {room : RoomData}
    (hr : getRoom s s.currentRoom = some room) :
    look s = .ok (s, [⟨room.name, "text-cyan-400 text-lg"⟩, ⟨room.description, ""⟩]) := by
  unfold look
  rw [hr]

theorem move_eq {s : GameState} {room : RoomData}
    (hg : getRoom s s.currentRoom = some room) (d : String) :
    move s d =
      if truthy (jsGet room.exits d) then
        if truthy (jsGet room.blockedExits d) then
          .ok (s, [⟨(jsGet room.blockedExits d).getD "", "text-yellow-400"⟩])
        else look { s with currentRoom := (jsGet room.exits d).getD "" }
      else .ok (s, [⟨"You can't go that way.", "text-red-400"⟩]) := by
  unfold move
  rw [hg]

theorem take_eq {s : GameState} {room : RoomData}
    (hg : getRoom s s.currentRoom = some room) (n : String) :
    take s n =
      if room.items.contains n then
        match itemsDef n with
        | none => .error .undefinedAccess
        | some item =>
            if item.canTake then
              .ok (setRoom { s with inventory := s.inventory ++ [n] } s.currentRoom
                     { room with items := room.items.filter (fun i => i != n) },
                  [⟨"You take the " ++ item.name ++ ".", ""⟩])
            else .ok (s, [⟨"You can't take that.", "text-red-400"⟩])
      else .ok (s, [⟨"You can't take that.", "text-red-400"⟩]) := by
  unfold take
  simp only [hg]
  try rfl

theorem examine_eq {s : GameState} {room : RoomData}
    (hg : getRoom s s.currentRoom = some room) (n : String) :
    examine s n =
      if room.items.contains n || s.inventory.contains n then
        match itemsDef n with
        | none => .error .undefinedAccess
        | some item =>
            if n == "stone" then
              if (stoneOnExamine s).2 != "" then
                .ok ((stoneOnExamine s).1,
                     [⟨item.description, ""⟩, ⟨(stoneOnExamine s).2, "text-green-400"⟩])
              else .ok ((stoneOnExamine s).1, [⟨item.description, ""⟩])
            else .ok (s, [⟨item.description, ""⟩])
      else .ok (s, [⟨"You don't see that here.", "text-red-400"⟩]) := by
  unfold examine
  simp only [hg]
  try rfl

theorem inv_getRoom {s : GameState} (hInv : Inv s) :
    ∃ room, getRoom s s.currentRoom = some room := by
  rcases inv_currentRoom_cases hInv with ⟨-, hg⟩ | ⟨-, hg⟩ | ⟨-, hg⟩ <;> exact ⟨_, hg⟩

theorem inv_exit_dest {s : GameState} {room : RoomData} {d v : String}
    (hInv : Inv s) (hg : getRoom s s.currentRoom = some room)
    (hv : jsGetOwn room.exits d = some v) :
    v = "cell" ∨ v = "hallway" ∨ v = "armory" := by
  obtain ⟨hcr, hce, hhe, hae, hcb, hhb, hab, hci, hhi, hai, hinv, hx1, hx2⟩ := hInv
  have hInv2 : Inv s := ⟨hcr, hce, hhe, hae, hcb, hhb, hab, hci, hhi, hai, hinv, hx1, hx2⟩
  rcases inv_currentRoom_cases hInv2 with ⟨-, hg2⟩ | ⟨-, hg2⟩ | ⟨-, hg2⟩ <;>
    rw [hg2] at hg <;> cases hg
  · rw [hce] at hv
    have := jsGetOwn_mem hv
    simp at this
    simp [this.2]
  · rw [hhe] at hv
    have := jsGetOwn_mem hv
    simp at this
    rcases this with ⟨-, h2⟩ | ⟨-, h2⟩ <;> simp [h2]
  · rw [hae] at hv
    have := jsGetOwn_mem hv
    simp at this
    simp [this.2]

theorem jsGet_cases {m : List (String × String)} {k v : String}
    (h : jsGet m k = some v) :
    jsGetOwn m k = some v ∨ (jsGetOwn m k = none ∧ protoGet k = some v) := by
  unfold jsGet at h
  cases ho : jsGetOwn m k with
  | some w =>
    rw [ho] at h
    simp at h
    exact Or.inl (by rw [h])
  | none =>
    rw [ho] at h
    exact Or.inr ⟨rfl, h⟩

theorem jsGet_none_elim {m : List (String × String)} {k : String}
    (h : jsGet m k = none) :
    jsGetOwn m k = none ∧ k ≠ "constructor" ∧ k ≠ "__proto__" := by
  unfold jsGet at h
  cases ho : jsGetOwn m k with
  | some w => rw [ho] at h; simp at h
  | none =>
    rw [ho] at h
    unfold protoGet at h
    refine ⟨rfl, ?_, ?_⟩ <;> intro hk <;> rw [hk] at h <;> simp at h

theorem protoGet_some_elim {k v : String} (h : protoGet k = some v) :
    (k = "constructor" ∧ v = "function Object() \x7b [native code] \x7d") ∨
    (k = "__proto__" ∧ v = "[object Object]") := by
  unfold protoGet at h
  by_cases h1 : (k == "constructor") = true
  · rw [if_pos h1] at h
    simp at h
    exact Or.inl ⟨by simpa using h1, h.symm⟩
  · rw [if_neg h1] at h
    by_cases h2 : (k == "__proto__") = true
    · rw [if_pos h2] at h
      simp at h
      exact Or.inr ⟨by simpa using h2, h.symm⟩
    · rw [if_neg h2] at h
      exact absurd h (by simp)

theorem inv_blocked_own_none_of_proto {s : GameState} {room : RoomData} {k : String}
    (hInv : Inv s) (hg : getRoom s s.currentRoom = some room)
    (hk : protoGet k ≠ none) : jsGetOwn room.blockedExits k = none := by
  have hk2 : k = "constructor" ∨ k = "__proto__" := by
    cases hp : protoGet k with
    | none => exact absurd hp hk
    | some v =>
      rcases protoGet_some_elim hp with ⟨h1, -⟩ | ⟨h1, -⟩
      · exact Or.inl h1
      · exact Or.inr h1
  obtain ⟨hcr, hce, hhe, hae, hcb, hhb, hab, hci, hhi, hai, hinv, hx1, hx2⟩ := hInv
  have hInv2 : Inv s := ⟨hcr, hce, hhe, hae, hcb, hhb, hab, hci, hhi, hai, hinv, hx1, hx2⟩
  rcases inv_currentRoom_cases hInv2 with ⟨-, hg2⟩ | ⟨-, hg2⟩ | ⟨-, hg2⟩ <;>
    rw [hg2] at hg <;> cases hg
  · rcases hcb with hh | hh <;> rw [hh] <;> rcases hk2 with rfl | rfl <;> decide
  · rcases hhb with hh | hh <;> rw [hh] <;> rcases hk2 with rfl | rfl <;> decide
  · rw [hab]
    rcases hk2 with rfl | rfl <;> decide

theorem inv_exits_own_none_of_proto {s : GameState} {room : RoomData} {k : String}
    (hInv : Inv s) (hg : getRoom s s.currentRoom = some room)
    (hk : protoGet k ≠ none) : jsGetOwn room.exits k = none := by
  have hk2 : k = "constructor" ∨ k = "__proto__" := by
    cases hp : protoGet k with
    | none => exact absurd hp hk
    | some v =>
      rcases protoGet_some_elim hp with ⟨h1, -⟩ | ⟨h1, -⟩
      · exact Or.inl h1
      · exact Or.inr h1
  obtain ⟨hcr, hce, hhe, hae, hcb, hhb, hab, hci, hhi, hai, hinv, hx1, hx2⟩ := hInv
  have hInv2 : Inv s := ⟨hcr, hce, hhe, hae, hcb, hhb, hab, hci, hhi, hai, hinv, hx1, hx2⟩
  rcases inv_currentRoom_cases hInv2 with ⟨-, hg2⟩ | ⟨-, hg2⟩ | ⟨-, hg2⟩ <;>
    rw [hg2] at hg <;> cases hg
  · rw [hce]
    rcases hk2 with rfl | rfl <;> decide
  · rw [hhe]
    rcases hk2 with rfl | rfl <;> decide
  · rw [hae]
    rcases hk2 with rfl | rfl <;> decide

theorem proto_blocked_truthy {s : GameState} {room : RoomData} {k : String}
    (hInv : Inv s) (hg : getRoom s s.currentRoom = some room)
    (hk : protoGet k ≠ none) : truthy (jsGet room.blockedExits k) = true := by
  have hown := inv_blocked_own_none_of_proto hInv hg hk
  cases hp : protoGet k with
  | none => exact absurd hp hk
  | some v =>
    have hj : jsGet room.blockedExits k = some v := by
      unfold jsGet
      rw [hown, hp]
    rw [hj]
    rcases protoGet_some_elim hp with ⟨-, rfl⟩ | ⟨-, rfl⟩ <;> decide

theorem inv_move_dest {s : GameState} {room : RoomData} {d v : String}
    (hInv : Inv s) (hg : getRoom s s.currentRoom = some room)
    (hv : jsGet room.exits d = some v)
    (hbf : truthy (jsGet room.blockedExits d) = false) :
    v = "cell" ∨ v = "hallway" ∨ v = "armory" := by
  rcases jsGet_cases hv with hown | ⟨-, hproto⟩
  · exact inv_exit_dest hInv hg hown
  · exfalso
    have := proto_blocked_truthy hInv hg (by rw [hproto]; simp)
    rw [this] at hbf
    exact absurd hbf (by simp)

theorem inv_exit_val_ne {s : GameState} {room : RoomData} {d v : String}
    (hInv : Inv s) (hg : getRoom s s.currentRoom = some room)
    (hv : jsGet room.exits d = some v) : v ≠ "" := by
  rcases jsGet_cases hv with hown | ⟨-, hproto⟩
  · rcases inv_exit_dest hInv hg hown with h1 | h1 | h1 <;> simp [h1]
  · rcases protoGet_some_elim hproto with ⟨-, rfl⟩ | ⟨-, rfl⟩ <;> decide

theorem getRoom_of_valid (s : GameState) {id : String}
    (h : id = "cell" ∨ id = "hallway" ∨ id = "armory") :
    ∃ r, getRoom s id = some r := by
  rcases h with rfl | rfl | rfl <;> exact ⟨_, rfl⟩

theorem move_ok {s : GameState} (hInv : Inv s) (d : String) :
    ∃ s' ls, move s d = .ok (s', ls) := by
  obtain ⟨room, hg⟩ := inv_getRoom hInv
  rw [move_eq hg]
  by_cases ht : truthy (jsGet room.exits d) = true
  · rw [if_pos ht]
    by_cases hb : truthy (jsGet room.blockedExits d) = true
    · rw [if_pos hb]
      exact ⟨s, _, rfl⟩
    · rw [if_neg hb]
      obtain ⟨v, hv, -⟩ := truthy_some ht
      have hvalid := inv_move_dest hInv hg hv (by simpa using hb)
      obtain ⟨r2, hr2⟩ := getRoom_of_valid { s with currentRoom := v } hvalid
      rw [hv]
      have hgd : (some v).getD "" = v := rfl
      rw [hgd]
      have hr2b : getRoom { s with currentRoom := v }
          ({ s with currentRoom := v } : GameState).currentRoom = some r2 := hr2
      exact ⟨_, _, look_of_room hr2b⟩
  · rw [if_neg ht]
    exact ⟨s, _, rfl⟩

theorem take_ok {s : GameState} (hInv : Inv s) (n : String) :
    ∃ s' ls, take s n = .ok (s', ls) := by
  obtain ⟨room, hg⟩ := inv_getRoom hInv
  rw [take_eq hg]
  by_cases hmem : room.items.contains n = true
  · rw [if_pos hmem]
    have hknown := inv_room_items_known hInv hg (by simpa using hmem)
    obtain ⟨item, hitem⟩ : ∃ it, itemsDef n = some it := by
      rcases hknown with rfl | rfl | rfl <;> exact ⟨_, rfl⟩
    simp only [hitem]
    by_cases hct : item.canTake = true
    · rw [if_pos hct]
      exact ⟨_, _, rfl⟩
    · rw [if_neg hct]
      exact ⟨s, _, rfl⟩
  · rw [if_neg hmem]
    exact ⟨s, _, rfl⟩

theorem examine_ok {s : GameState} (hInv : Inv s) (n : String) :
    ∃ s' ls, examine s n = .ok (s', ls) := by
  obtain ⟨room, hg⟩ := inv_getRoom hInv
  rw [examine_eq hg]
  by_cases hvis : (room.items.contains n || s.inventory.contains n) = true
  · rw [if_pos hvis]
    have hor : n ∈ room.items ∨ n ∈ s.inventory := by simpa using hvis
    have hknown : n = "stone" ∨ n = "key" ∨ n = "sword" := by
      rcases hor with h1 | h1
      · exact inv_room_items_known hInv hg h1
      · exact Or.inr (inv_inventory_known hInv h1)
    obtain ⟨item, hitem⟩ : ∃ it, itemsDef n = some it := by
      rcases hknown with rfl | rfl | rfl <;> exact ⟨_, rfl⟩
    simp only [hitem]
    by_cases hstone : (n == "stone") = true
    · rw [if_pos hstone]
      by_cases hres : ((stoneOnExamine s).2 != "") = true
      · rw [if_pos hres]
        exact ⟨_, _, rfl⟩
      · rw [if_neg hres]
        exact ⟨_, _, rfl⟩
    · rw [if_neg hstone]
      exact ⟨s, _, rfl⟩
  · rw [if_neg hvis]
    exact ⟨s, _, rfl⟩

theorem showInventory_ok {s : GameState} (hInv : Inv s) :
    ∃ ls, showInventory s = .ok (s, ls) := by
  obtain ⟨-, -, -, -, -, -, -, -, -, -, hinv, -, -⟩ := hInv
  rcases hinv with hh | hh | hh | hh | hh <;> unfold showInventory <;> rw [hh] <;>
    exact ⟨_, rfl⟩

theorem dispatch_ok {s : GameState} (hInv : Inv s) (v n : String) :
    ∃ s' ls, dispatch s v n = .ok (s', ls) := by
  unfold dispatch
  split
  · obtain ⟨room, hg⟩ := inv_getRoom hInv
    exact ⟨s, _, look_of_room hg⟩
  split
  · exact move_ok hInv n
  split
  · exact take_ok hInv n
  split
  · exact examine_ok hInv n
  split
  · obtain ⟨ls, hl⟩ := showInventory_ok hInv
    exact ⟨s, ls, hl⟩
  split
  · exact ⟨_, _, rfl⟩
  · exact ⟨s, _, rfl⟩

theorem processCommand_ok {s : GameState} (hInv : Inv s) (raw : String) :
    ∃ s' out, processCommand s raw = .ok (s', out) := by
  unfold processCommand
  cases hp : parseCommand raw with
  | none => exact ⟨s, [], rfl⟩
  | some vn =>
    obtain ⟨v, n⟩ := vn
    obtain ⟨s', ls, hd⟩ := dispatch_ok hInv v n
    simp only [hd]
    exact ⟨s', _, rfl⟩

theorem processCommand_empty {s : GameState} {raw : String} (h : jsTrim raw = "") :
    processCommand s raw = .ok (s, []) := by
  have h2 : jsToLower (jsTrim raw) = "" := by rw [h]; rfl
  unfold processCommand parseCommand
  rw [h2]
  rfl

theorem inv_unlockState {s : GameState} (h : Inv s) : Inv (unlockState s) := by
  obtain ⟨hcr, hce, hhe, hae, hcb, hhb, hab, hci, hhi, hai, hinv, hx1, hx2⟩ := h
  unfold unlockState
  refine ⟨hcr, hce, hhe, hae, hcb, ?_, hab, hci, hhi, hai, hinv, hx1, hx2⟩
  rcases hhb with hh | hh <;> rw [hh] <;> simp [jsDelete]

theorem inv_winState {s : GameState} (h : Inv s) : Inv (winState s) := by
  obtain ⟨hcr, hce, hhe, hae, hcb, hhb, hab, hci, hhi, hai, hinv, hx1, hx2⟩ := h
  unfold winState
  refine ⟨hcr, hce, hhe, hae, ?_, hhb, hab, hci, hhi, hai, hinv, hx1, hx2⟩
  rcases hcb with hh | hh <;> rw [hh] <;> simp [jsDelete]

theorem inv_reveal {s : GameState} (h : Inv s)
    (hk1 : "key" ∉ s.inventory) (hk2 : "key" ∉ s.cell.items) :
    Inv { s with cell := { s.cell with items := s.cell.items ++ ["key"] } } := by
  obtain ⟨hcr, hce, hhe, hae, hcb, hhb, hab, hci, hhi, hai, hinv, hx1, hx2⟩ := h
  have hc1 : s.cell.items = ["stone"] := by
    rcases hci with hh | hh
    · exact hh
    · rw [hh] at hk2; simp at hk2
  refine ⟨hcr, hce, hhe, hae, hcb, hhb, hab, ?_, hhi, hai, hinv, ?_, hx2⟩
  · rw [hc1]; simp
  · intro _
    exact hk1

theorem inv_preserved {s s' : GameState} {raw : String} {out : List Line}
    (hInv : Inv s) (h : processCommand s raw = .ok (s', out)) : Inv s' := by
  rcases processCommand_shape h with rfl | ⟨v, n, hp, hm⟩
  · exact hInv
  obtain ⟨hcr, hce, hhe, hae, hcb, hhb, hab, hci, hhi, hai, hinv, hx1, hx2⟩ := hInv
  have hInv2 : Inv s := ⟨hcr, hce, hhe, hae, hcb, hhb, hab, hci, hhi, hai, hinv, hx1, hx2⟩
  rcases hm with ⟨-, room, dest, hr, he, hbf, rfl⟩ |
    ⟨-, room, item, hr, hmem, hitem, hct, rfl⟩ |
    ⟨-, -, hk1, hk2, -, rfl⟩ | ⟨-, -, -, ⟨-, -, rfl⟩ | ⟨-, -, rfl⟩⟩
  -- move: only currentRoom changes, and the destination is a real room
  -- (the two inherited directions never move: their blocked lookup is truthy)
  · have hdest := inv_move_dest hInv2 hr he hbf
    exact ⟨hdest, hce, hhe, hae, hcb, hhb, hab, hci, hhi, hai, hinv, hx1, hx2⟩
  -- take
  · rcases inv_currentRoom_cases hInv2 with ⟨hc, hg⟩ | ⟨hc, hg⟩ | ⟨hc, hg⟩ <;>
      rw [hg] at hr <;> cases hr <;> rw [hc]
    -- taking in the cell: only the key is takeable there
    · have hn : n = "key" := by
        rcases hci with hh | hh <;> rw [hh] at hmem <;> simp at hmem
        · rw [hmem] at hitem
          simp [itemsDef] at hitem
          rw [← hitem] at hct
          simp at hct
        · rcases hmem with hmem | hmem
          · rw [hmem] at hitem
            simp [itemsDef] at hitem
            rw [← hitem] at hct
            simp at hct
          · exact hmem
      subst hn
      have hcell : s.cell.items = ["stone", "key"] := by
        rcases hci with hh | hh
        · rw [hh] at hmem; simp at hmem
        · exact hh
      have hnokey : "key" ∉ s.inventory := hx1 (by rw [hcell]; simp)
      simp only [setRoom]
      norm_num
      refine ⟨Or.inl rfl, hce, hhe, hae, hcb, hhb, hab, ?_, hhi, hai, ?_, ?_, ?_⟩
      · rw [hcell]; simp
      · rcases hinv with hh | hh | hh | hh | hh <;> rw [hh] <;> simp <;> rw [hh] at hnokey <;>
          simp at hnokey
      · rw [hcell]
        intro hcontra
        simp at hcontra
      · intro hsw
        have := hx2 hsw
        simpa using this
    -- taking in the hallway: nothing is there
    · rw [hhi] at hmem
      simp at hmem
    -- taking in the armory: only the sword
    · have hn : n = "sword" := by
        rcases hai with hh | hh <;> rw [hh] at hmem <;> simp at hmem
        exact hmem
      subst hn
      have harm : s.armory.items = ["sword"] := by
        rcases hai with hh | hh
        · exact hh
        · rw [hh] at hmem; simp at hmem
      have hnosw : "sword" ∉ s.inventory := hx2 (by rw [harm]; simp)
      simp only [setRoom]
      norm_num
      refine ⟨Or.inr (Or.inr rfl), hce, hhe, hae, hcb, hhb, hab, hci, hhi, ?_, ?_, ?_, ?_⟩
      · rw [harm]; simp
      · rcases hinv with hh | hh | hh | hh | hh <;> rw [hh] <;> simp <;> rw [hh] at hnosw <;>
          simp at hnosw
      · intro hk
        have := hx1 hk
        simpa using this
      · rw [harm]
        intro hcontra
        simp at hcontra
  -- examine reveal
  · exact inv_reveal hInv2 hk1 hk2
  -- use
  · exact inv_unlockState hInv2
  · exact inv_winState hInv2


theorem inv_initState : Inv initState := by
  unfold Inv
  refine ⟨?_, ?_, ?_, ?_, ?_, ?_, ?_, ?_, ?_, ?_, ?_, ?_, ?_⟩ <;> decide

theorem inv_flags {s : GameState} (hInv : Inv s) (b c d : Bool) :
    Inv { s with gameRunning := b, startHidden := c, inputHidden := d } := by
  obtain ⟨hcr, hce, hhe, hae, hcb, hhb, hab, hci, hhi, hai, hinv, hx1, hx2⟩ := hInv
  exact ⟨hcr, hce, hhe, hae, hcb, hhb, hab, hci, hhi, hai, hinv, hx1, hx2⟩

theorem startGame_shape {s s' : GameState} {ls : List Line}
    (h : startGame s = .ok (s', ls)) :
    s' = { s with gameRunning := true, startHidden := true, inputHidden := false } := by
  unfold startGame at h
  split at h
  · exact absurd h (by simp)
  case _ s2 ls2 heq =>
    have := look_shape heq
    simp only [Except.ok.injEq, Prod.mk.injEq] at h
    rw [← h.1, this]

theorem startGame_ok {s : GameState} (hInv : Inv s) :
    ∃ s' ls, startGame s = .ok (s', ls) := by
  have hInv2 := inv_flags hInv true true false
  obtain ⟨room, hg⟩ := inv_getRoom hInv2
  unfold startGame
  rw [look_of_room hg]
  exact ⟨_, _, rfl⟩

theorem appStep_inv {s s' : GameState} {e : Event} {out : List Line}
    (hInv : Inv s) (h : appStep s e = .ok (s', out)) : Inv s' := by
  cases e with
  | clickStart =>
    simp only [appStep] at h
    split at h
    · simp only [Except.ok.injEq, Prod.mk.injEq] at h
      rw [← h.1]
      exact hInv
    · rw [startGame_shape h]
      exact inv_flags hInv true true false
  | submit t =>
    simp only [appStep] at h
    split at h
    · simp only [Except.ok.injEq, Prod.mk.injEq] at h
      rw [← h.1]
      exact hInv
    · exact inv_preserved hInv h

theorem reachable_inv {s : GameState} (h : Reachable s) : Inv s := by
  induction h with
  | init => exact inv_initState
  | step hr hs ih => exact appStep_inv ih hs

theorem reachableCmd_inv {s : GameState} (h : ReachableCmd s) : Inv s := by
  induction h with
  | init => exact inv_initState
  | step hr hs ih => exact inv_preserved ih hs

theorem processCommand_flags {s s' : GameState} {raw : String} {out : List Line}
    (h : processCommand s raw = .ok (s', out)) :
    (s'.gameRunning = s.gameRunning ∧ s'.inputHidden = s.inputHidden) ∨
    (s'.gameRunning = false ∧ s'.inputHidden = true) := by
  rcases processCommand_shape h with rfl | ⟨v, n, hp, hm⟩
  · exact Or.inl ⟨rfl, rfl⟩
  rcases hm with ⟨-, room, dest, -, -, -, rfl⟩ | ⟨-, room, item, -, -, -, -, rfl⟩ |
    ⟨-, -, -, -, -, rfl⟩ | ⟨-, -, -, ⟨-, -, rfl⟩ | ⟨-, -, rfl⟩⟩
  · exact Or.inl ⟨rfl, rfl⟩
  · exact Or.inl ⟨setRoom_gameRunning _ _ _, setRoom_inputHidden _ _ _⟩
  · exact Or.inl ⟨rfl, rfl⟩
  · exact Or.inl ⟨rfl, rfl⟩
  · exact Or.inr ⟨rfl, rfl⟩

theorem processCommand_deactivation {s s' : GameState} {raw : String} {out : List Line}
    (h : processCommand s raw = .ok (s', out))
    (h1 : s.gameRunning = true) (h2 : s'.gameRunning = false) :
    isEscapeCommand s raw = true := by
  rcases processCommand_flags h with ⟨hg, -⟩ | ⟨-, -⟩
  case inl =>
    rw [h2, h1] at hg
    exact absurd hg (by simp)
  rcases processCommand_shape h with rfl | ⟨v, n, hp, hm⟩
  · rw [h1] at h2
    exact absurd h2 (by simp)
  rcases hm with ⟨-, room, dest, -, -, -, rfl⟩ | ⟨-, room, item, -, -, -, -, rfl⟩ |
    ⟨-, -, -, -, -, rfl⟩ | ⟨hv, hheld, htgt, ⟨-, -, rfl⟩ | ⟨hitm, hroom, rfl⟩⟩
  · simp only [h1] at h2
    exact absurd h2 (by simp)
  · rw [setRoom_gameRunning] at h2
    simp only [h1] at h2
    exact absurd h2 (by simp)
  · simp only [h1] at h2
    exact absurd h2 (by simp)
  · have hu : (unlockState s).gameRunning = s.gameRunning := rfl
    rw [hu, h1] at h2
    exact absurd h2 (by simp)
  · unfold isEscapeCommand
    rw [hp]
    rw [hitm] at hheld
    simp [hv, hitm, htgt, hroom]
    simpa using hheld

theorem uiInv_reachable {s : GameState} (h : Reachable s) :
    s.gameRunning = false → s.inputHidden = true := by
  induction h with
  | init => intro _; rfl
  | step hr hs ih =>
    rename_i s0 s1 e out
    cases e with
    | clickStart =>
      simp only [appStep] at hs
      split at hs
      · simp only [Except.ok.injEq, Prod.mk.injEq] at hs
        rw [← hs.1]
        exact ih
      · rw [startGame_shape hs]
        intro hcontra
        simp at hcontra
    | submit t =>
      simp only [appStep] at hs
      split at hs
      · simp only [Except.ok.injEq, Prod.mk.injEq] at hs
        rw [← hs.1]
        exact ih
      case isFalse hhid =>
        rcases processCommand_flags hs with ⟨hg, hi⟩ | ⟨hg, hi⟩
        · intro hfalse
          rw [hg] at hfalse
          have := ih hfalse
          exact absurd this hhid
        · intro _
          exact hi

theorem appStep_deactivation {s s' : GameState} {e : Event} {out : List Line}
    (h : appStep s e = .ok (s', out))
    (h1 : s.gameRunning = true) (h2 : s'.gameRunning = false) :
    ∃ t, e = Event.submit t ∧ isEscapeCommand s t = true := by
  cases e with
  | clickStart =>
    simp only [appStep] at h
    split at h
    · simp only [Except.ok.injEq, Prod.mk.injEq] at h
      rw [← h.1] at h2
      rw [h1] at h2
      exact absurd h2 (by simp)
    · rw [startGame_shape h] at h2
      simp at h2
  | submit t =>
    simp only [appStep] at h
    split at h
    · simp only [Except.ok.injEq, Prod.mk.injEq] at h
      rw [← h.1] at h2
      rw [h1] at h2
      exact absurd h2 (by simp)
    · exact ⟨t, rfl, processCommand_deactivation h h1 h2⟩

theorem inv_bag {s : GameState} (hInv : Inv s) (id : String) :
    (itemBag s).count id ≤ 1 := by
  obtain ⟨-, -, -, -, -, -, -, hci, hhi, hai, hinv, hx1, hx2⟩ := hInv
  unfold itemBag
  rcases hci with hc | hc <;> rcases hai with ha | ha <;>
    rcases hinv with hi | hi | hi | hi | hi <;>
    rw [hc, hhi, ha, hi] <;>
    first
      | exact List.nodup_iff_count_le_one.mp (by decide) id
      | (exfalso; simp [hc, ha, hi] at hx1 hx2)


/-- C1 counterexample: a session started in the state left behind by an
abandoned play-through (start, examine stone, take key) does not reset the
World Model: after `startGame` the inventory still holds the key, so the
inventory is not empty and the key is not nowhere. -/
theorem startGame_no_reset_cex :
    runApp initState
      [Event.clickStart, Event.submit "examine stone", Event.submit "take key"]
      = .ok sAband ∧
    (startGame sAband).toOption.map (fun p => p.1.inventory) = some ["key"] ∧
    (["key"] : List String) ≠ [] := by
  refine ⟨by rfl, by rfl, by decide⟩

/-- C1 (amended): `startGame` performs no reset of the World Model: it only
sets the session active, swaps the visibility of the two controls, and
narrates the current room.  Invoked in the initial program state (the only
state in which the application's start control can ever fire, since the start
button is never re-shown), the post-start state has the player in the cell,
an empty inventory, the stone in the cell's item set, the key nowhere, and
the cell's north and the hallway's east exits blocked. -/
theorem startGame_activates_without_reset :
    (∀ s s' out, startGame s = .ok (s', out) →
      s' = { s with gameRunning := true, startHidden := true, inputHidden := false }) ∧
    (startGame initState =
      .ok ({ initState with gameRunning := true, startHidden := true, inputHidden := false },
        [⟨"Executing DungeonEscape.java...", "text-yellow-400"⟩, ⟨"---", ""⟩,
         ⟨cellInit.name, "text-cyan-400 text-lg"⟩, ⟨cellInit.description, ""⟩])) ∧
    initState.currentRoom = "cell" ∧ initState.inventory = [] ∧
    "stone" ∈ initState.cell.items ∧
    "key" ∉ initState.cell.items ∧ "key" ∉ initState.hallway.items ∧
    "key" ∉ initState.armory.items ∧ "key" ∉ initState.inventory ∧
    jsGet initState.cell.blockedExits "north" =
      some "The door is barred from the other side." ∧
    jsGet initState.hallway.blockedExits "east" = some "The door is locked." := by
  refine ⟨?_, by rfl, by decide, by decide, by decide, by decide, by decide, by decide,
    by decide, by decide, by decide⟩
  intro s s' out h
  exact startGame_shape h

/-- C1 witness: starting in the abandoned play-through state carries its
inventory over unchanged. -/
theorem startGame_activates_without_reset_witness :
    ({ initState with gameRunning := true, startHidden := true, inputHidden := false,
                      inventory := ["key"] } : GameState)
      = { sAband with gameRunning := true, startHidden := true, inputHidden := false } :=
  startGame_activates_without_reset.1 sAband
    { initState with gameRunning := true, startHidden := true, inputHidden := false,
                     inventory := ["key"] }
    [⟨"Executing DungeonEscape.java...", "text-yellow-400"⟩, ⟨"---", ""⟩,
     ⟨cellInit.name, "text-cyan-400 text-lg"⟩, ⟨cellInit.description, ""⟩]
    (by rfl)

/-- C2: the engine is a two-state session machine: in every reachable state
in which the session is Idle, a submitted input is a silent no-op (no output,
no state change, because the input area is hidden whenever the session is
Idle); and the only step that ever moves the session from Active to Idle is
the successful escape, a submitted `use` command whose held first noun token
is the sword and whose third noun token is `door`, issued in the cell. -/
theorem session_two_state_machine :
    (∀ s t, Reachable s → s.gameRunning = false →
      appStep s (Event.submit t) = .ok (s, [])) ∧
    (∀ s s' e out, appStep s e = .ok (s', out) → s.gameRunning = true →
      s'.gameRunning = false → ∃ t, e = Event.submit t ∧ isEscapeCommand s t = true) := by
  constructor
  · intro s t hr hidle
    have hhid := uiInv_reachable hr hidle
    simp [appStep, hhid]
  · intro s s' e out h h1 h2
    exact appStep_deactivation h h1 h2

/-- C2 witness. -/
theorem session_two_state_machine_witness :
    appStep initState (Event.submit "look") = .ok (initState, []) ∧
    (∃ t, Event.submit "use sword on door" = Event.submit t ∧
      isEscapeCommand sEscape t = true) := by
  constructor
  · exact session_two_state_machine.1 initState "look" Reachable.init rfl
  · exact session_two_state_machine.2 sEscape
      { sEscape with gameRunning := false, inputHidden := true,
                     cell := { cellInit with blockedExits := [] } }
      (Event.submit "use sword on door")
      [⟨"> use sword on door", "text-gray-500"⟩,
       ⟨"You swing the sword with all your might and shatter the wooden bar on the other side of the door!", "text-green-400"⟩,
       ⟨"You have escaped the dungeon!", "text-yellow-400 font-bold text-lg"⟩]
      (by rfl) rfl rfl

/-- C3: in every reachable state (through user interactions, or through any
command sequence fed directly to the engine), processing any raw input
string never faults: it produces a narrated result, and input that is empty
after trimming is a silent no-action. -/
theorem processCommand_never_faults (s : GameState) (raw : String)
    (hr : Reachable s ∨ ReachableCmd s) :
    (∃ s' out, processCommand s raw = .ok (s', out)) ∧
    (jsTrim raw = "" → processCommand s raw = .ok (s, [])) := by
  have hInv : Inv s := by
    rcases hr with h | h
    · exact reachable_inv h
    · exact reachableCmd_inv h
  exact ⟨processCommand_ok hInv raw, fun he => processCommand_empty he⟩

/-- C3 witness. -/
theorem processCommand_never_faults_witness :
    (∃ s' out, processCommand initState "take nonexistent thing" = .ok (s', out)) ∧
    processCommand initState "   " = .ok (initState, []) :=
  ⟨(processCommand_never_faults initState "take nonexistent thing" (Or.inl Reachable.init)).1,
   (processCommand_never_faults initState "   " (Or.inl Reachable.init)).2 (by decide)⟩

/-- C9: in every state reachable from the initial state by processing any
sequence of commands, each item identifier occurs at most once across the
three room item sets and the inventory, and processing one more command
preserves this. -/
theorem item_single_location_invariant (s : GameState) (hr : ReachableCmd s) (id : String) :
    (itemBag s).count id ≤ 1 ∧
    (∀ raw s' out, processCommand s raw = .ok (s', out) → (itemBag s').count id ≤ 1) :=
  ⟨inv_bag (reachableCmd_inv hr) id,
   fun _ _ _ h => inv_bag (inv_preserved (reachableCmd_inv hr) h) id⟩

/-- C9 witness. -/
theorem item_single_location_invariant_witness :
    (itemBag initState).count "key" ≤ 1 ∧ (itemBag initState).count "stone" ≤ 1 :=
  ⟨(item_single_location_invariant initState ReachableCmd.init "key").1,
   (item_single_location_invariant initState ReachableCmd.init "stone").1⟩

/-- C8 counterexample: `"take stone"` and `"take  stone"` have the same
whitespace-delimited tokens, yet parse differently: the split is on single
space characters, so the extra interior space survives in the noun. -/
theorem parser_whitespace_cex :
    ((jsSplit ' ' "take stone").filter (fun t => t != "")) =
      ((jsSplit ' ' "take  stone").filter (fun t => t != "")) ∧
    parseCommand "take stone" = some ("take", "stone") ∧
    parseCommand "take  stone" = some ("take", " stone") ∧
    parseCommand "take stone" ≠ parseCommand "take  stone" := by
  refine ⟨by decide, by decide, by decide, by decide⟩

/-- C8 (amended): the parser lower-cases the trimmed raw input and splits it
on single space characters: the verb is the first piece and the noun the
remaining pieces rejoined with single spaces (so parsing is insensitive to
case and to leading or trailing whitespace, but interior whitespace is
significant: consecutive spaces yield empty pieces that survive in the
noun); input that is empty after trimming yields no action at all, not
even an echo. -/
theorem parser_spec (s : GameState) (r1 r2 raw : String) :
    (jsToLower (jsTrim r1) = jsToLower (jsTrim r2) →
      processCommand s r1 = processCommand s r2) ∧
    (jsTrim raw = "" → processCommand s raw = .ok (s, [])) ∧
    (jsToLower (jsTrim raw) ≠ "" →
      parseCommand raw = some ((jsSplit ' ' (jsToLower (jsTrim raw))).headD "",
        " ".intercalate (jsSplit ' ' (jsToLower (jsTrim raw))).tail)) := by
  refine ⟨?_, fun he => processCommand_empty he, ?_⟩
  · intro h
    unfold processCommand parseCommand
    rw [h]
  · intro h
    unfold parseCommand
    rw [if_neg (by simpa using h)]

/-- C8 witness. -/
theorem parser_spec_witness :
    processCommand initState "  LOOK " = processCommand initState "look" ∧
    processCommand initState " " = .ok (initState, []) ∧
    parseCommand "Go  North" = some ((jsSplit ' ' (jsToLower (jsTrim "Go  North"))).headD "",
      " ".intercalate (jsSplit ' ' (jsToLower (jsTrim "Go  North"))).tail) :=
  ⟨(parser_spec initState "  LOOK " "look" "x").1 (by decide),
   (parser_spec initState "r1" "r2" " ").2.1 (by decide),
   (parser_spec initState "r1" "r2" "Go  North").2.2 (by decide)⟩

/-- C10: a `use` command whose noun phrase has fewer than three
space-separated tokens leaves the target position empty, so no rule can
match: if the first token is not held the command reports that the item is
not possessed, and otherwise it reports the generic failure; in both cases
the state is unchanged, even when the held item is in the room where the
three-token form would succeed. -/
theorem use_short_noun_spec (s : GameState) (noun : String)
    (hlen : (jsSplit ' ' noun).length < 3) :
    (useItem noun ∉ s.inventory →
      use s noun = (s, [⟨"You don't have that.", "text-red-400"⟩])) ∧
    (useItem noun ∈ s.inventory →
      use s noun = (s, [⟨"You can't use that like that.", "text-red-400"⟩])) := by
  have htgt : useTarget noun = none := by
    unfold useTarget
    exact List.getElem?_eq_none (by omega)
  constructor
  · intro hnot
    have hc : s.inventory.contains (useItem noun) = false := by
      simpa using hnot
    unfold use
    rw [if_pos (by simpa using hnot)]
  · intro hheld
    have hc : s.inventory.contains (useItem noun) = true := by
      simpa using hheld
    unfold use
    rw [if_neg (by simpa using hheld)]
    rw [if_neg (by simp [htgt])]
    rw [if_neg (by simp [htgt])]

/-- C10 witness: with the key held in the hallway (where `use key on door`
would succeed), the two-token form `use key door` still fails with the
generic message, and the same two-token noun without possession reports the
item as not held. -/
theorem use_short_noun_spec_witness :
    use { initState with currentRoom := "hallway", inventory := ["key"] } "key door" =
      ({ initState with currentRoom := "hallway", inventory := ["key"] },
       [⟨"You can't use that like that.", "text-red-400"⟩]) ∧
    use initState "key door" =
      (initState, [⟨"You don't have that.", "text-red-400"⟩]) :=
  ⟨(use_short_noun_spec { initState with currentRoom := "hallway", inventory := ["key"] }
      "key door" (by decide)).2 (by decide),
   (use_short_noun_spec initState "key door" (by decide)).1 (by decide)⟩

/-- C4: for a `use` command whose first noun token is held: with the key on
the door in the hallway, the hallway's east blocking entry is deleted and the
success line is printed; with the sword on the door in the cell, the cell's
north blocking entry is deleted, the success and win lines are printed and
the session is deactivated; every other held-item combination (including the
sword on the door in the hallway) prints the generic failure and changes
nothing. -/
theorem use_held_item_spec (s : GameState) (noun : String)
    (hheld : useItem noun ∈ s.inventory) :
    (useItem noun = "key" → useTarget noun = some "door" → s.currentRoom = "hallway" →
      use s noun = (unlockState s,
        [⟨"The key fits! You unlock the armory door with a loud *click*.", "text-green-400"⟩]) ∧
      (unlockState s).hallway.blockedExits = jsDelete s.hallway.blockedExits "east") ∧
    (useItem noun = "sword" → useTarget noun = some "door" → s.currentRoom = "cell" →
      use s noun = (winState s,
        [⟨"You swing the sword with all your might and shatter the wooden bar on the other side of the door!", "text-green-400"⟩,
         ⟨"You have escaped the dungeon!", "text-yellow-400 font-bold text-lg"⟩]) ∧
      (winState s).cell.blockedExits = jsDelete s.cell.blockedExits "north" ∧
      (winState s).gameRunning = false) ∧
    (¬(useItem noun = "key" ∧ useTarget noun = some "door" ∧ s.currentRoom = "hallway") →
     ¬(useItem noun = "sword" ∧ useTarget noun = some "door" ∧ s.currentRoom = "cell") →
      use s noun = (s, [⟨"You can't use that like that.", "text-red-400"⟩])) := by
  have hc : s.inventory.contains (useItem noun) = true := by
    simpa using hheld
  refine ⟨?_, ?_, ?_⟩
  · intro h1 h2 h3
    refine ⟨?_, rfl⟩
    unfold use
    rw [if_neg (by simpa using hheld)]
    rw [if_pos (by simp [h1, h2, h3])]
  · intro h1 h2 h3
    refine ⟨?_, rfl, rfl⟩
    unfold use
    rw [if_neg (by simpa using hheld)]
    rw [if_neg (by simp [h1])]
    rw [if_pos (by simp [h1, h2, h3])]
  · intro h1 h2
    unfold use
    rw [if_neg (by simpa using hheld)]
    rw [if_neg ?hb1, if_neg ?hb2]
    case hb1 =>
      intro hcontra
      apply h1
      simp only [Bool.and_eq_true, beq_iff_eq] at hcontra
      obtain ⟨⟨ha, hb⟩, hcc⟩ := hcontra
      exact ⟨ha, by simpa using hb, hcc⟩
    case hb2 =>
      intro hcontra
      apply h2
      simp only [Bool.and_eq_true, beq_iff_eq] at hcontra
      obtain ⟨⟨ha, hb⟩, hcc⟩ := hcontra
      exact ⟨ha, by simpa using hb, hcc⟩

/-- C4 witness: the key on the door in the hallway unlocks the east exit;
the held sword on the door in the hallway (wrong room) and the held key on a
wall (no rule) both fail with the generic message and change nothing. -/
theorem use_held_item_spec_witness :
    use { initState with currentRoom := "hallway", inventory := ["key"] } "key on door" =
      (unlockState { initState with currentRoom := "hallway", inventory := ["key"] },
       [⟨"The key fits! You unlock the armory door with a loud *click*.", "text-green-400"⟩]) ∧
    use { initState with currentRoom := "hallway", inventory := ["sword"] } "sword on door" =
      ({ initState with currentRoom := "hallway", inventory := ["sword"] },
       [⟨"You can't use that like that.", "text-red-400"⟩]) ∧
    use { initState with inventory := ["key"] } "key on wall" =
      ({ initState with inventory := ["key"] },
       [⟨"You can't use that like that.", "text-red-400"⟩]) :=
  ⟨((use_held_item_spec { initState with currentRoom := "hallway", inventory := ["key"] }
      "key on door" (by decide)).1 (by decide) (by decide) rfl).1,
   (use_held_item_spec { initState with currentRoom := "hallway", inventory := ["sword"] }
      "sword on door" (by decide)).2.2 (by decide) (by decide),
   (use_held_item_spec { initState with inventory := ["key"] }
      "key on wall" (by decide)).2.2 (by decide) (by decide)⟩

theorem getRoom_setRoom_self {s : GameState} {r : RoomData}
    (h : s.currentRoom = "cell" ∨ s.currentRoom = "hallway" ∨ s.currentRoom = "armory") :
    getRoom (setRoom s s.currentRoom r) (setRoom s s.currentRoom r).currentRoom = some r := by
  rcases h with hc | hc | hc <;> rw [setRoom_currentRoom, hc] <;> simp [setRoom, getRoom, hc]

/-- C5: `take` succeeds exactly when the noun is in the current room's item
set with a true takeable flag; success appends the item once at the tail of
the inventory, removes it from the room, and prints the take line; any
failure prints one generic line and changes nothing; and taking the same
item a second time fails. -/
theorem take_spec (s : GameState) (room : RoomData) (noun : String)
    (hInv : Inv s) (hg : getRoom s s.currentRoom = some room) :
    (¬(noun ∈ room.items ∧ takeableOf noun = true) →
      take s noun = .ok (s, [⟨"You can't take that.", "text-red-400"⟩])) ∧
    (∀ item, noun ∈ room.items → itemsDef noun = some item → item.canTake = true →
      take s noun = .ok (takeSuccessState s room noun,
          [⟨"You take the " ++ item.name ++ ".", ""⟩]) ∧
      (takeSuccessState s room noun).inventory = s.inventory ++ [noun] ∧
      noun ∉ (room.items.filter (fun i => i != noun)) ∧
      take (takeSuccessState s room noun) noun =
        .ok (takeSuccessState s room noun, [⟨"You can't take that.", "text-red-400"⟩])) := by
  constructor
  · intro hfail
    rw [take_eq hg]
    by_cases hmem : room.items.contains noun = true
    · obtain ⟨item0, hitem0⟩ : ∃ it, itemsDef noun = some it := by
        rcases inv_room_items_known hInv hg (by simpa using hmem) with rfl | rfl | rfl <;>
          exact ⟨_, rfl⟩
      have hnt : item0.canTake = false := by
        by_contra hcontra
        apply hfail
        refine ⟨by simpa using hmem, ?_⟩
        unfold takeableOf
        rw [hitem0]
        simpa using hcontra
      rw [if_pos hmem]
      simp only [hitem0]
      rw [if_neg (by simp [hnt])]
    · rw [if_neg hmem]
  · intro item hmem hitem hct
    have hsucc : take s noun = .ok (takeSuccessState s room noun,
        [⟨"You take the " ++ item.name ++ ".", ""⟩]) := by
      rw [take_eq hg]
      rw [if_pos (by simpa using hmem)]
      simp only [hitem]
      rw [if_pos hct]
      rfl
    refine ⟨hsucc, by simp [takeSuccessState, setRoom_inventory], by simp, ?_⟩
    have hg2 : getRoom (takeSuccessState s room noun)
        (takeSuccessState s room noun).currentRoom =
        some { room with items := room.items.filter (fun i => i != noun) } :=
      @getRoom_setRoom_self { s with inventory := s.inventory ++ [noun] }
        { room with items := room.items.filter (fun i => i != noun) } hInv.1
    rw [take_eq hg2]
    rw [if_neg (by simp)]

/-- C5 witness: the sword in the armory is takeable exactly once, and the
stone in the cell is present but not takeable. -/
theorem take_spec_witness :
    take { initState with currentRoom := "armory" } "sword" =
      .ok (takeSuccessState { initState with currentRoom := "armory" } armoryInit "sword",
        [⟨"You take the Gleaming Sword.", ""⟩]) ∧
    take (takeSuccessState { initState with currentRoom := "armory" } armoryInit "sword")
        "sword" =
      .ok (takeSuccessState { initState with currentRoom := "armory" } armoryInit "sword",
        [⟨"You can't take that.", "text-red-400"⟩]) ∧
    take initState "stone" = .ok (initState, [⟨"You can't take that.", "text-red-400"⟩]) :=
  ⟨((take_spec { initState with currentRoom := "armory" } armoryInit "sword"
      (by decide) rfl).2 ⟨"Gleaming Sword",
        "A beautiful, sharp sword. It feels powerful in your hands. Perhaps you could break something with it?",
        true⟩ (by decide) (by decide) (by decide)).1,
   ((take_spec { initState with currentRoom := "armory" } armoryInit "sword"
      (by decide) rfl).2 ⟨"Gleaming Sword",
        "A beautiful, sharp sword. It feels powerful in your hands. Perhaps you could break something with it?",
        true⟩ (by decide) (by decide) (by decide)).2.2.2,
   (take_spec initState cellInit "stone" (by decide) rfl).1 (by decide)⟩

theorem inv_blocked_msg_ne {s : GameState} {room : RoomData} {d msg : String}
    (hInv : Inv s) (hg : getRoom s s.currentRoom = some room)
    (hb : jsGet room.blockedExits d = some msg) : msg ≠ "" := by
  rcases jsGet_cases hb with hown | ⟨-, hproto⟩
  · obtain ⟨hcr, hce, hhe, hae, hcb, hhb, hab, hci, hhi, hai, hinv, hx1, hx2⟩ := hInv
    have hInv2 : Inv s := ⟨hcr, hce, hhe, hae, hcb, hhb, hab, hci, hhi, hai, hinv, hx1, hx2⟩
    have hm := jsGetOwn_mem hown
    rcases inv_currentRoom_cases hInv2 with ⟨-, hg2⟩ | ⟨-, hg2⟩ | ⟨-, hg2⟩ <;>
      rw [hg2] at hg <;> cases hg
    · rcases hcb with hh | hh <;> rw [hh] at hm <;> simp at hm
      simp [hm.2]
    · rcases hhb with hh | hh <;> rw [hh] at hm <;> simp at hm
      simp [hm.2]
    · rw [hab] at hm
      simp at hm
  · rcases protoGet_some_elim hproto with ⟨-, rfl⟩ | ⟨-, rfl⟩ <;> decide

/-- C7 counterexample: `constructor` is not a key of the cell's exits
mapping (nor of its blockedExits), yet `go constructor` does not answer
"You can't go that way.": the room objects inherit `constructor` from
`Object.prototype`, the inherited value is truthy in both lookups (and the
parser's lower-casing leaves it intact), so `move` prints the stringified
inherited value as a blocking message instead, moving nothing. -/
theorem move_proto_direction_cex :
    jsGetOwn cellInit.exits "constructor" = none ∧
    jsGetOwn cellInit.blockedExits "constructor" = none ∧
    move initState "constructor" =
      .ok (initState,
        [⟨"function Object() \x7b [native code] \x7d", "text-yellow-400"⟩]) ∧
    (⟨"function Object() \x7b [native code] \x7d", "text-yellow-400"⟩ : Line) ≠
      ⟨"You can't go that way.", "text-red-400"⟩ := by
  refine ⟨by decide, by decide, by rfl, by decide⟩

/-- C7 (amended): `move` is a three-case contract keyed on the JavaScript
property lookup, which also sees the two all-lowercase names every object
literal inherits from `Object.prototype` (`constructor` and `__proto__`): a
direction whose exits lookup is `undefined` — equivalently, not an own exit
key and not one of the two inherited names — is narrated as impassable with
no mutation; a direction whose exits lookup is truthy and whose
blocked-exits lookup yields a value is narrated with that value and no
mutation (blocked takes precedence, the player never moves through a blocked
exit); otherwise the player's current room becomes the destination and
`look` runs on the new room.  For the two inherited names both lookups are
truthy in every room, so `move` prints the stringified inherited value as a
blocking message and mutates nothing. -/
theorem move_three_case_spec (s : GameState) (room : RoomData) (direction : String)
    (hInv : Inv s) (hg : getRoom s s.currentRoom = some room) :
    (jsGet room.exits direction = none →
      move s direction = .ok (s, [⟨"You can't go that way.", "text-red-400"⟩])) ∧
    (∀ msg, jsGet room.exits direction ≠ none →
      jsGet room.blockedExits direction = some msg →
      move s direction = .ok (s, [⟨msg, "text-yellow-400"⟩])) ∧
    (∀ dest, jsGet room.exits direction = some dest →
      jsGet room.blockedExits direction = none →
      ∃ room2, getRoom s dest = some room2 ∧
        move s direction = .ok ({ s with currentRoom := dest },
          [⟨room2.name, "text-cyan-400 text-lg"⟩, ⟨room2.description, ""⟩])) ∧
    (direction ≠ "constructor" → direction ≠ "__proto__" →
      jsGetOwn room.exits direction = none →
      move s direction = .ok (s, [⟨"You can't go that way.", "text-red-400"⟩])) ∧
    (move s "constructor" =
      .ok (s, [⟨"function Object() \x7b [native code] \x7d", "text-yellow-400"⟩]) ∧
     move s "__proto__" = .ok (s, [⟨"[object Object]", "text-yellow-400"⟩])) := by
  refine ⟨?_, ?_, ?_, ?_, ?_, ?_⟩
  · intro hnone
    rw [move_eq hg]
    rw [if_neg (by simp [hnone, truthy])]
  · intro msg hne hb
    obtain ⟨dest, hdest⟩ : ∃ v, jsGet room.exits direction = some v := by
      cases ho : jsGet room.exits direction with
      | none => exact absurd ho hne
      | some v => exact ⟨v, rfl⟩
    have hdne : dest ≠ "" := inv_exit_val_ne hInv hg hdest
    have hmne := inv_blocked_msg_ne hInv hg hb
    rw [move_eq hg]
    rw [if_pos (by simp [hdest, truthy, hdne])]
    rw [if_pos (by simp [hb, truthy, hmne])]
    rw [hb]
    rfl
  · intro dest hdest hbnone
    obtain ⟨hbown, hnc, hnp⟩ := jsGet_none_elim hbnone
    have hown : jsGetOwn room.exits direction = some dest := by
      rcases jsGet_cases hdest with h1 | ⟨-, h2⟩
      · exact h1
      · exfalso
        rcases protoGet_some_elim h2 with ⟨h3, -⟩ | ⟨h3, -⟩
        · exact hnc h3
        · exact hnp h3
    have hdne : dest ≠ "" := inv_exit_val_ne hInv hg hdest
    obtain ⟨room2, hr2⟩ := getRoom_of_valid { s with currentRoom := dest }
      (inv_exit_dest hInv hg hown)
    refine ⟨room2, ?_, ?_⟩
    · rw [← getRoom_currentRoom_update s dest dest]
      exact hr2
    · rw [move_eq hg]
      rw [if_pos (by simp [hdest, truthy, hdne])]
      rw [if_neg (by simp [hbnone, truthy])]
      rw [hdest]
      have hr2b : getRoom { s with currentRoom := dest }
          ({ s with currentRoom := dest } : GameState).currentRoom = some room2 := hr2
      exact look_of_room hr2b
  · intro hnc hnp hown
    have hnone : jsGet room.exits direction = none := by
      unfold jsGet
      rw [hown]
      unfold protoGet
      rw [if_neg (by simpa using hnc), if_neg (by simpa using hnp)]
    rw [move_eq hg]
    rw [if_neg (by simp [hnone, truthy])]
  · have hkp : protoGet "constructor" ≠ none := by decide
    have hoe := inv_exits_own_none_of_proto hInv hg hkp
    have hje : jsGet room.exits "constructor" =
        some "function Object() \x7b [native code] \x7d" := by
      unfold jsGet
      rw [hoe]
      rfl
    have hob := inv_blocked_own_none_of_proto hInv hg hkp
    have hjb : jsGet room.blockedExits "constructor" =
        some "function Object() \x7b [native code] \x7d" := by
      unfold jsGet
      rw [hob]
      rfl
    rw [move_eq hg]
    rw [if_pos (by simp [hje, truthy])]
    rw [if_pos (by simp [hjb, truthy])]
    rw [hjb]
    rfl
  · have hkp : protoGet "__proto__" ≠ none := by decide
    have hoe := inv_exits_own_none_of_proto hInv hg hkp
    have hje : jsGet room.exits "__proto__" = some "[object Object]" := by
      unfold jsGet
      rw [hoe]
      rfl
    have hob := inv_blocked_own_none_of_proto hInv hg hkp
    have hjb : jsGet room.blockedExits "__proto__" = some "[object Object]" := by
      unfold jsGet
      rw [hob]
      rfl
    rw [move_eq hg]
    rw [if_pos (by simp [hje, truthy])]
    rw [if_pos (by simp [hjb, truthy])]
    rw [hjb]
    rfl

/-- C7 witness: in the cell, `south` and `west` are not exits (and are not
inherited names); `north` is an exit but blocked (the player stays put); in
the hallway, `south` is an unblocked exit and moving performs `look` on the
cell; and the inherited direction `__proto__` prints the stringified
prototype as a blocking message. -/
theorem move_three_case_spec_witness :
    move initState "south" = .ok (initState, [⟨"You can't go that way.", "text-red-400"⟩]) ∧
    move initState "north" =
      .ok (initState, [⟨"The door is barred from the other side.", "text-yellow-400"⟩]) ∧
    (∃ room2, getRoom { initState with currentRoom := "hallway" } "cell" = some room2 ∧
      move { initState with currentRoom := "hallway" } "south" =
        .ok ({ { initState with currentRoom := "hallway" } with currentRoom := "cell" },
          [⟨room2.name, "text-cyan-400 text-lg"⟩, ⟨room2.description, ""⟩])) ∧
    move initState "west" = .ok (initState, [⟨"You can't go that way.", "text-red-400"⟩]) ∧
    move initState "__proto__" = .ok (initState, [⟨"[object Object]", "text-yellow-400"⟩]) :=
  ⟨(move_three_case_spec initState cellInit "south" (by decide) rfl).1 (by decide),
   (move_three_case_spec initState cellInit "north" (by decide) rfl).2.1
     "The door is barred from the other side." (by decide) (by decide),
   (move_three_case_spec { initState with currentRoom := "hallway" } hallwayInit "south"
     (by decide) rfl).2.2.1 "cell" (by decide) (by decide),
   (move_three_case_spec initState cellInit "west" (by decide) rfl).2.2.2.1
     (by decide) (by decide) (by decide),
   (move_three_case_spec initState cellInit "anything" (by decide) rfl).2.2.2.2.2⟩

/-- C6: the stone's examine-effect reveals the key exactly once: in the
initial state the key is nowhere; the first examine of the stone in the cell
appends the key to the cell's item set and prints the reveal line; once the
key is in the cell's items or the inventory, examining the stone changes no
item set and no inventory and prints a different, static line; and every
processed command that is not an examine of the visible stone preserves the
key's absence. -/
theorem stone_reveal_once_spec :
    ("key" ∉ initState.cell.items ∧ "key" ∉ initState.inventory) ∧
    (∀ s : GameState, s.currentRoom = "cell" → "stone" ∈ s.cell.items →
      "key" ∉ s.cell.items → "key" ∉ s.inventory →
      examine s "stone" = .ok
        ({ s with cell := { s.cell with items := s.cell.items ++ ["key"] } },
         [⟨"A fist-sized stone. You notice a small, rusty key hidden in the cavity beneath it.", ""⟩,
          ⟨"You lift the stone and find a small, rusty key!", "text-green-400"⟩])) ∧
    (∀ s : GameState, s.currentRoom = "cell" → "stone" ∈ s.cell.items →
      ("key" ∈ s.cell.items ∨ "key" ∈ s.inventory) →
      examine s "stone" = .ok (s,
        [⟨"A fist-sized stone. You notice a small, rusty key hidden in the cavity beneath it.", ""⟩,
         ⟨"It's just a stone. You already found the key that was under it.", "text-green-400"⟩])) ∧
    (("It's just a stone. You already found the key that was under it." : String) ≠
      "You lift the stone and find a small, rusty key!") ∧
    (∀ s raw s' out, Inv s → "key" ∉ s.cell.items → "key" ∉ s.inventory →
      examinesStone s raw = false → processCommand s raw = .ok (s', out) →
      "key" ∉ s'.cell.items ∧ "key" ∉ s'.inventory) := by
  refine ⟨⟨by decide, by decide⟩, ?_, ?_, by decide, ?_⟩
  · intro s hc hst hk1 hk2
    have hg : getRoom s s.currentRoom = some s.cell := by rw [hc]; rfl
    rw [examine_eq hg]
    rw [if_pos (by simp [List.mem_filter]; exact Or.inl hst)]
    have hcond : (!(s.inventory.contains "key") && !(s.cell.items.contains "key")) = true := by
      simp
      constructor
      · simpa using hk2
      · simpa using hk1
    unfold stoneOnExamine
    rw [if_pos hcond]
    rfl
  · intro s hc hst hor
    have hg : getRoom s s.currentRoom = some s.cell := by rw [hc]; rfl
    rw [examine_eq hg]
    rw [if_pos (by simp; exact Or.inl hst)]
    have hcond : ¬((!(s.inventory.contains "key") && !(s.cell.items.contains "key")) = true) := by
      intro hcontra
      simp only [Bool.and_eq_true, Bool.not_eq_eq_eq_not, Bool.not_true] at hcontra
      rcases hor with h2 | h2
      · have h3 := hcontra.2
        simp at h3
        exact h3 h2
      · have h3 := hcontra.1
        simp at h3
        exact h3 h2
    unfold stoneOnExamine
    rw [if_neg hcond]
    rfl
  · intro s raw s' out hInv hk1 hk2 hes h
    rcases processCommand_shape h with rfl | ⟨v, n, hp, hm⟩
    · exact ⟨hk1, hk2⟩
    rcases hm with ⟨-, room, dest, -, -, -, rfl⟩ |
      ⟨-, room, item, hgr, hmem, hitem, hct, rfl⟩ |
      ⟨hv, hn, -, -, hvis, rfl⟩ |
      ⟨-, -, -, ⟨-, -, rfl⟩ | ⟨-, -, rfl⟩⟩
    · exact ⟨hk1, hk2⟩
    · -- take: the key cannot be taken (it is nowhere), so the taken item is
      -- another one and the key stays absent
      rcases inv_currentRoom_cases hInv with ⟨hc, hg0⟩ | ⟨hc, hg0⟩ | ⟨hc, hg0⟩ <;>
        rw [hg0] at hgr <;> cases hgr
      · exfalso
        obtain ⟨-, -, -, -, -, -, -, hci, -, -, -, -, -⟩ := hInv
        have hcell : s.cell.items = ["stone"] := by
          rcases hci with hh | hh
          · exact hh
          · rw [hh] at hk1; simp at hk1
        rw [hcell] at hmem
        simp at hmem
        rw [hmem] at hitem
        simp [itemsDef] at hitem
        rw [← hitem] at hct
        simp at hct
      · exfalso
        obtain ⟨-, -, -, -, -, -, -, -, hhi, -, -, -, -⟩ := hInv
        rw [hhi] at hmem
        simp at hmem
      · obtain ⟨-, -, -, -, -, -, -, -, -, hai, -, -, -⟩ := hInv
        have hn : n = "sword" := by
          rcases hai with hh | hh <;> rw [hh] at hmem <;> simp at hmem
          exact hmem
        constructor
        · simp only [hc, setRoom]
          norm_num
          exact hk1
        · rw [setRoom_inventory]
          rw [hn]
          simp
          simpa using hk2
    · -- the reveal shape contradicts the hypothesis that this command is not
      -- an examine of the visible stone
      exfalso
      unfold examinesStone at hes
      obtain ⟨room, hgr, hst⟩ := hvis
      rw [hp, hn, hgr] at hes
      rw [Bool.eq_false_iff] at hes
      apply hes
      show ((v == "examine" || v == "x") && (("stone" : String) == "stone") &&
        (room.items.contains "stone" || s.inventory.contains "stone")) = true
      rcases hv with h1 | h1 <;> rcases hst with h2 | h2 <;> simp [h1, h2]
    · exact ⟨hk1, hk2⟩
    · exact ⟨hk1, hk2⟩

/-- C6 witness. -/
theorem stone_reveal_once_spec_witness :
    examine initState "stone" = .ok
      ({ initState with cell := { initState.cell with
          items := initState.cell.items ++ ["key"] } },
       [⟨"A fist-sized stone. You notice a small, rusty key hidden in the cavity beneath it.", ""⟩,
        ⟨"You lift the stone and find a small, rusty key!", "text-green-400"⟩]) ∧
    examine { initState with cell := { cellInit with items := ["stone", "key"] } } "stone" =
      .ok ({ initState with cell := { cellInit with items := ["stone", "key"] } },
       [⟨"A fist-sized stone. You notice a small, rusty key hidden in the cavity beneath it.", ""⟩,
        ⟨"It's just a stone. You already found the key that was under it.", "text-green-400"⟩]) ∧
    ("key" ∉ initState.cell.items ∧ "key" ∉ initState.inventory) :=
  ⟨stone_reveal_once_spec.2.1 initState rfl (by decide) (by decide) (by decide),
   stone_reveal_once_spec.2.2.1 { initState with cell := { cellInit with items := ["stone", "key"] } }
     rfl (by decide) (by decide),
   (stone_reveal_once_spec.2.2.2.2 initState "go north" initState
     [⟨"> go north", "text-gray-500"⟩,
      ⟨"The door is barred from the other side.", "text-yellow-400"⟩]
     (by decide) (by decide) (by decide) (by decide) (by rfl))⟩

end DungeonEscape
